import Mathlib

/-!
# Verification of the AgriAI query-routing and context-management pipeline

Shallow embedding of `backend/app/agents/intent_classifier.py`,
`backend/app/agents/orchestrator.py` and `backend/app/agents/base.py`
(the intent classifier, the orchestrator pipeline `process_query`, the
conversation recorder `_save_conversation`, the response enhancer
`_enhance_response`, the memory helpers and the `route` method), together
with theorems settling the specification claims about them.

Python dictionaries are embedded as ordered association lists
(`assocGet` / `assocSet` reproduce `dict` lookup and insertion-order
update semantics), JSON-serialisable values as the inductive `Val`,
Python floats as `ℚ` (every constant in the source is an exact decimal),
the Redis store as a typed key-value state `Store`, and possible failure
of external calls (Redis operations, domain responders backed by LLM or
weather services) as an environment `Env` of `Except`-valued collaborators.
-/

/-- One `{"user": ..., "assistant": ...}` entry of `conversation_history`. -/
structure Turn where
  user : String
  assistant : String
deriving DecidableEq

/-- JSON-like values stored in `metadata` dictionaries and user contexts. -/
inductive Val where
  | null : Val
  | str : String → Val
  | num : ℚ → Val
  | bool : Bool → Val
  | turns : List Turn → Val
  | arr : List Val → Val
  | obj : List (String × Val) → Val

/-- A Python `dict` keyed by strings, in insertion order. -/
abbrev Ctx := List (String × Val)

/-- `d.get(k)` on an ordered association list. -/
def assocGet (m : List (String × α)) (k : String) : Option α :=
  (m.find? (fun p => p.1 == k)).map Prod.snd

/-- `d[k] = v` on an ordered association list: an existing key keeps its
position, a new key is appended (CPython `dict` semantics). -/
def assocSet (m : List (String × α)) (k : String) (v : α) : List (String × α) :=
  if (m.find? (fun p => p.1 == k)).isSome then
    m.map (fun p => if p.1 == k then (k, v) else p)
  else
    m ++ [(k, v)]

/-- `base.update(upd)` on ordered association lists. -/
def ctxUpdate (base upd : List (String × α)) : List (String × α) :=
  upd.foldl (fun b kv => assocSet b kv.1 kv.2) base

/-- Python `l[-n:]`: the last `n` elements (the whole list when shorter). -/
def lastN (n : ℕ) (l : List α) : List α := l.drop (l.length - n)

/-- Python's `in` for strings: `needle` occurs as a contiguous substring. -/
def strContains (hay needle : String) : Bool :=
  go needle.data hay.data
where
  go (needle : List Char) : List Char → Bool
    | [] => needle.isPrefixOf []
    | c :: rest => needle.isPrefixOf (c :: rest) || go needle rest

/-- A regex word character `\w` as used by the patterns in the source
(ASCII letters, digits, underscore). -/
def isWordChar (c : Char) : Bool := c.isAlpha || c.isDigit || c == '_'

/-- The position left of the alternative is a `\b` boundary: start of the
text or a non-word character. -/
def leftBoundary (prev : Option Char) : Bool :=
  match prev with
  | none => true
  | some c => !isWordChar c

/-- The alternative occurs right here and is followed by a `\b` boundary
(end of text or a non-word character). -/
def altAt (alt : List Char) (t : List Char) : Bool :=
  alt.isPrefixOf t &&
    (match t.drop alt.length with
     | [] => true
     | d :: _ => !isWordChar d)

/-- Scan the text for a `\b`-delimited occurrence of the alternative,
tracking the previous character for the left boundary. -/
def altMatches (alt : List Char) : Option Char → List Char → Bool
  | prev, [] => leftBoundary prev && altAt alt []
  | prev, c :: rest =>
      (leftBoundary prev && altAt alt (c :: rest)) || altMatches alt (some c) rest

/-- One `(pattern, weight)` rule of `intent_patterns`: the regex source
text, its `\b(alt|...|alt)\b` alternatives, and the confidence weight. -/
structure Pattern where
  regex : String
  alts : List String
  weight : ℚ
deriving DecidableEq

/-- `re.search(pattern, text)` succeeds: some alternative occurs in the
text with word boundaries on both sides. -/
def patternMatches (p : Pattern) (text : String) : Bool :=
  p.alts.any (fun a => altMatches a.data none text.data)

/-- The static rule table `self.intent_patterns` of `IntentClassifierAgent`,
in registration order. -/
def intent_patterns : List (String × List Pattern) :=
  [ ("crop_advisory",
      [ ⟨"\\b(crop|plant|seed|variety|sowing|harvest)\\b",
          ["crop", "plant", "seed", "variety", "sowing", "harvest"], 0.8⟩,
        ⟨"\\b(which crop|what to grow|best crop|recommend crop)\\b",
          ["which crop", "what to grow", "best crop", "recommend crop"], 0.9⟩,
        ⟨"\\b(season|timing|when to plant)\\b",
          ["season", "timing", "when to plant"], 0.7⟩ ]),
    ("soil_analysis",
      [ ⟨"\\b(soil|pH|nitrogen|phosphorus|potassium|NPK|nutrients)\\b",
          ["soil", "pH", "nitrogen", "phosphorus", "potassium", "NPK", "nutrients"], 0.8⟩,
        ⟨"\\b(soil test|soil health|soil quality)\\b",
          ["soil test", "soil health", "soil quality"], 0.9⟩,
        ⟨"\\b(fertilizer|manure|compost)\\b",
          ["fertilizer", "manure", "compost"], 0.6⟩ ]),
    ("weather",
      [ ⟨"\\b(weather|rain|temperature|humidity|wind)\\b",
          ["weather", "rain", "temperature", "humidity", "wind"], 0.8⟩,
        ⟨"\\b(forecast|climate|monsoon|drought)\\b",
          ["forecast", "climate", "monsoon", "drought"], 0.7⟩,
        ⟨"\\b(will it rain|weather today|temperature)\\b",
          ["will it rain", "weather today", "temperature"], 0.9⟩ ]),
    ("irrigation",
      [ ⟨"\\b(water|irrigation|watering|moisture)\\b",
          ["water", "irrigation", "watering", "moisture"], 0.8⟩,
        ⟨"\\b(drip|sprinkler|flood irrigation)\\b",
          ["drip", "sprinkler", "flood irrigation"], 0.9⟩,
        ⟨"\\b(when to water|how much water)\\b",
          ["when to water", "how much water"], 0.8⟩ ]),
    ("pest_disease",
      [ ⟨"\\b(pest|disease|insect|fungus|virus|bacteria)\\b",
          ["pest", "disease", "insect", "fungus", "virus", "bacteria"], 0.8⟩,
        ⟨"\\b(leaf spot|blight|aphid|caterpillar)\\b",
          ["leaf spot", "blight", "aphid", "caterpillar"], 0.9⟩,
        ⟨"\\b(plant sick|leaves turning|crop damage)\\b",
          ["plant sick", "leaves turning", "crop damage"], 0.7⟩ ]),
    ("market_intelligence",
      [ ⟨"\\b(price|market|mandi|sell|buy)\\b",
          ["price", "market", "mandi", "sell", "buy"], 0.8⟩,
        ⟨"\\b(commodity|trading|auction)\\b",
          ["commodity", "trading", "auction"], 0.7⟩,
        ⟨"\\b(market rate|current price|price trend)\\b",
          ["market rate", "current price", "price trend"], 0.9⟩ ]),
    ("financial",
      [ ⟨"\\b(loan|credit|subsidy|insurance|EMI)\\b",
          ["loan", "credit", "subsidy", "insurance", "EMI"], 0.8⟩,
        ⟨"\\b(bank|finance|money|cost|profit)\\b",
          ["bank", "finance", "money", "cost", "profit"], 0.6⟩,
        ⟨"\\b(PM-Kisan|crop insurance|KCC)\\b",
          ["PM-Kisan", "crop insurance", "KCC"], 0.9⟩ ]),
    ("policy",
      [ ⟨"\\b(policy|government|scheme|law|regulation)\\b",
          ["policy", "government", "scheme", "law", "regulation"], 0.8⟩,
        ⟨"\\b(MSP|procurement|support price)\\b",
          ["MSP", "procurement", "support price"], 0.9⟩,
        ⟨"\\b(eligibility|application|form)\\b",
          ["eligibility", "application", "form"], 0.6⟩ ]) ]

/-- The value stored in `intent_scores[intent]`: the capped score (the
`"score"` key) and the regex sources of the matched patterns (the
`"matches"` key; `matches` is a Lean keyword, hence the field name). -/
structure IntentScore where
  score : ℚ
  matched : List String
deriving DecidableEq

/-- The per-intent scoring loop body of `IntentClassifierAgent.process`:
sum the weights of the matching patterns and keep the intent only when the
sum is positive, capping the stored score at `1.0`. -/
def scoreEntry (queryLower : String) (e : String × List Pattern) :
    Option (String × IntentScore) :=
  let matched := e.2.filter (fun p => patternMatches p queryLower)
  let score := matched.foldl (fun acc p => acc + p.weight) 0
  if score > 0 then
    some (e.1, ⟨min score 1, matched.map Pattern.regex⟩)
  else
    none

/-- The `intent_scores` dictionary computed by
`IntentClassifierAgent.process` on `query.lower()`, in registration order. -/
def intent_scores (query : String) : List (String × IntentScore) :=
  intent_patterns.filterMap (scoreEntry query.toLower)

/-- Python `max(items, key=lambda x: x[1]["score"])`: fold keeping the
current best, replacing it only on a strictly greater score (so the first
maximal element wins). -/
def pyMaxFold (hd : String × IntentScore) (l : List (String × IntentScore)) :
    String × IntentScore :=
  l.foldl (fun best x => if x.2.score > best.2.score then x else best) hd

/-- The `(primary_intent, confidence)` branch of
`IntentClassifierAgent.process`: best scored intent, or the
`("general", 0.5)` default when no pattern matched. -/
def classifyPair (query : String) : String × ℚ :=
  match intent_scores query with
  | [] => ("general", 0.5)
  | x :: xs =>
      let best := pyMaxFold x xs
      (best.1, best.2.score)

/-- Specification-side predicate for the tie-break claim: `x` attains the
maximum score of the scored list `l` (every entry's score is at most
`x`'s).  The first entry of `l` satisfying `dominates l` is the first
maximal entry in registration order. -/
def dominates (l : List (String × IntentScore)) (x : String × IntentScore) : Bool :=
  l.all (fun y => decide (y.2.score ≤ x.2.score))

/-- The uniform responder contract `AgentResponse` of `base.py` (pydantic
model; `metadata` and `citations` default to empty, `requires_followup`
to `False`). -/
structure AgentResponse where
  agent_name : String
  response : String
  confidence : ℚ
  metadata : Ctx := []
  citations : List String := []
  requires_followup : Bool := false

/-- Serialise the `intent_scores` dictionary as stored under the
`"all_intents"` metadata key. -/
def scoresToVal (l : List (String × IntentScore)) : Val :=
  Val.obj (l.map (fun e =>
    (e.1, Val.obj [("score", Val.num e.2.score),
                   ("matches", Val.arr (e.2.matched.map Val.str))])))

/-- `IntentClassifierAgent.process`: classify a query (pure; the `context`
argument of the Python method is unused by its body). -/
def intent_classifier_process (query : String) : AgentResponse :=
  let pair := classifyPair query
  { agent_name := "Intent Classifier"
    response := "Classified as: " ++ pair.1
    confidence := pair.2
    metadata := [("primary_intent", Val.str pair.1),
                 ("all_intents", scoresToVal (intent_scores query)),
                 ("query_length", Val.num query.length)] }

/-- `intent_response.metadata.get("primary_intent", "general")` as read by
`process_query` (the classifier always stores a string there). -/
def primaryIntentOf (query : String) : String :=
  match assocGet (intent_classifier_process query).metadata "primary_intent" with
  | some (Val.str s) => s
  | _ => "general"

/-- The static routing map `self.intent_to_agent` of `AgentOrchestrator`. -/
def intent_to_agent : List (String × String) :=
  [ ("crop_advisory", "crop_advisory"),
    ("soil_analysis", "soil_analysis"),
    ("weather", "weather"),
    ("irrigation", "irrigation_planning"),
    ("pest_disease", "pest_disease"),
    ("market_intelligence", "market_intelligence"),
    ("financial", "financial_planning"),
    ("policy", "policy_query"),
    ("general", "crop_advisory") ]

/-- The keys of `self.agents`: the responders registered at startup. -/
def agentNames : List String :=
  [ "intent_classifier", "crop_advisory", "weather", "market_intelligence",
    "soil_analysis", "pest_disease", "irrigation_planning",
    "financial_planning", "policy_query", "translation", "llm_chat" ]

/-- Steps 3 of `process_query`: `intent_to_agent.get(primary_intent,
"crop_advisory")`, then fall back to `crop_advisory` when the name has no
registered agent. -/
def routedAgent (primary_intent : String) : String :=
  let name := (assocGet intent_to_agent primary_intent).getD "crop_advisory"
  if agentNames.contains name then name else "crop_advisory"

/-- The static `follow_ups` table of `_enhance_response`. -/
def follow_ups : List (String × List String) :=
  [ ("crop_advisory",
      [ "Would you like weather information for your area?",
        "Do you need market price information for this crop?",
        "Would you like soil preparation advice?" ]),
    ("weather",
      [ "Would you like irrigation scheduling advice?",
        "Do you need crop protection recommendations?",
        "Would you like to know about suitable crops for this weather?" ]),
    ("market_intelligence",
      [ "Would you like crop advisory for better profits?",
        "Do you need information about storage and transportation?",
        "Would you like to know about government schemes?" ]) ]

/-- Python truthiness of a JSON value (`if user_context.get("location"):`). -/
def valTruthy : Val → Bool
  | Val.null => false
  | Val.str s => !s.isEmpty
  | Val.num q => !(q == 0)
  | Val.bool b => b
  | Val.turns l => !l.isEmpty
  | Val.arr l => !l.isEmpty
  | Val.obj l => !l.isEmpty

/-- The location-note step of `_enhance_response`: append the tailored-for
note when the context location does not already occur in the response text.
A truthy non-string location would raise `AttributeError` at
`location.lower()`. -/
def locationStep (uc : Ctx) (text : String) : Except String String :=
  match assocGet uc "location" with
  | some v =>
      if valTruthy v then
        match v with
        | Val.str location =>
            if strContains text.toLower location.toLower then
              Except.ok text
            else
              Except.ok (text ++ "\n\n*Note: This advice is tailored for " ++
                location ++ " region.*")
        | _ => Except.error "AttributeError"
      else Except.ok text
  | none => Except.ok text

/-- The follow-up suggestions for a `primary_intent` metadata value:
`follow_ups.get(primary_intent, [])`. A dictionary key must be hashable,
so a list/dict-valued `primary_intent` raises `TypeError`. -/
def followUpsFor (pv : Option Val) : Except String (List String) :=
  match pv with
  | some (Val.str s) => Except.ok ((assocGet follow_ups s).getD [])
  | some (Val.turns _) => Except.error "TypeError"
  | some (Val.arr _) => Except.error "TypeError"
  | some (Val.obj _) => Except.error "TypeError"
  | _ => Except.ok []

/-- `AgentOrchestrator._enhance_response`: location note, follow-up block,
rebuilt metadata, `requires_followup` from the follow-up table. -/
def enhance_response (response intent_response : AgentResponse) (user_context : Ctx) :
    Except String AgentResponse :=
  match locationStep user_context response.response with
  | Except.error e => Except.error e
  | Except.ok text1 =>
    let pv := assocGet intent_response.metadata "primary_intent"
    match followUpsFor pv with
    | Except.error e => Except.error e
    | Except.ok fus =>
      let inTable : Bool :=
        match pv with
        | some (Val.str s) => (assocGet follow_ups s).isSome
        | _ => false
      let text2 :=
        if inTable then
          (fus.take 2).foldl (fun acc suggestion => acc ++ "â€¢ " ++ suggestion ++ "\n")
            (text1 ++ "\n\n**Related Questions:**\n")
        else text1
      Except.ok
        { agent_name := response.agent_name
          response := text2
          confidence := response.confidence
          metadata :=
            assocSet (assocSet (assocSet response.metadata
              "intent_confidence" (Val.num intent_response.confidence))
              "primary_intent" (pv.getD Val.null))
              "user_context_used" (Val.bool (!user_context.isEmpty))
          citations := response.citations
          requires_followup := !fus.isEmpty }

/-- A Redis call, identified by operation, key and arguments; the
environment decides which calls raise. -/
inductive RedisOp where
  | get : String → RedisOp
  | setex : String → ℕ → RedisOp
  | lpush : String → RedisOp
  | ltrim : String → ℕ → ℕ → RedisOp
  | expire : String → ℕ → RedisOp
deriving DecidableEq

/-- The `conversation_data` record that `_save_conversation` pushes onto
the rolling log. -/
structure ConvRecord where
  query : String
  response : String
  agent : String
  confidence : ℚ
  timestamp : ℚ

/-- The Redis state: string keys holding a (context value, TTL seconds)
pair written by `setex`, and list keys holding the rolling conversation
log with an optional TTL set by `expire`. -/
structure Store where
  kv : List (String × (Ctx × ℕ))
  lists : List (String × (List ConvRecord × Option ℕ))

/-- The store at process start: nothing persisted. -/
def emptyStore : Store := ⟨[], []⟩

/-- The collaborators of one request: which Redis calls raise, what each
domain responder (an external LLM/API-backed agent) returns or raises, and
the event-loop clock used for the log timestamp. -/
structure Env where
  fails : RedisOp → Bool
  respond : String → String → Option Ctx → Except String AgentResponse
  now : ℚ

/-- `redis_client.get(key)`: the stored context value, `None` when the key
is absent. -/
def rGet (e : Env) (s : Store) (key : String) : Except String (Option Ctx) :=
  if e.fails (RedisOp.get key) then Except.error "RedisError: get"
  else Except.ok ((assocGet s.kv key).map Prod.fst)

/-- `redis_client.setex(key, ttl, value)`. -/
def rSetex (e : Env) (s : Store) (key : String) (ttl : ℕ) (v : Ctx) :
    Except String Store :=
  if e.fails (RedisOp.setex key ttl) then Except.error "RedisError: setex"
  else Except.ok { s with kv := assocSet s.kv key (v, ttl) }

/-- `redis_client.lpush(key, value)`: prepend, creating the key with no
TTL when absent, keeping the TTL when present. -/
def rLpush (e : Env) (s : Store) (key : String) (v : ConvRecord) :
    Except String Store :=
  if e.fails (RedisOp.lpush key) then Except.error "RedisError: lpush"
  else
    let ls :=
      match assocGet s.lists key with
      | some (l, t) => assocSet s.lists key (v :: l, t)
      | none => assocSet s.lists key ([v], none)
    Except.ok { s with lists := ls }

/-- `redis_client.ltrim(key, 0, 9)`: keep the elements with indices
`start..stop`; absent keys are untouched. -/
def rLtrim (e : Env) (s : Store) (key : String) (start stop : ℕ) :
    Except String Store :=
  if e.fails (RedisOp.ltrim key start stop) then Except.error "RedisError: ltrim"
  else
    let ls :=
      match assocGet s.lists key with
      | some (l, t) => assocSet s.lists key ((l.drop start).take (stop + 1 - start), t)
      | none => s.lists
    Except.ok { s with lists := ls }

/-- `redis_client.expire(key, ttl)`: set the TTL of an existing list key. -/
def rExpire (e : Env) (s : Store) (key : String) (ttl : ℕ) :
    Except String Store :=
  if e.fails (RedisOp.expire key ttl) then Except.error "RedisError: expire"
  else
    let ls :=
      match assocGet s.lists key with
      | some (l, _) => assocSet s.lists key (l, some ttl)
      | none => s.lists
    Except.ok { s with lists := ls }

/-- The durable per-user context key `f"user_context:{user_id}"` used by
`AgentOrchestrator._get_user_context`, `_save_conversation` and
`process_query`. -/
def userContextKey (user_id : String) : String := "user_context:" ++ user_id

/-- The key `f"user_context:{user_id}"` used by
`BaseAgent.save_memory_context` / `get_memory_context` for the 24-hour
agent-memory snapshot. -/
def memoryContextKey (user_id : String) : String := "user_context:" ++ user_id

/-- The rolling-log key `f"conversation:{user_id}:{session_id}"` of
`_save_conversation`. -/
def conversationKey (user_id session_id : String) : String :=
  "conversation:" ++ user_id ++ ":" ++ session_id

/-- `AgentOrchestrator._get_user_context`: read and parse the stored
context, substituting `{}` on a missing key or any exception. -/
def get_user_context (e : Env) (s : Store) (user_id : String) : Ctx :=
  match rGet e s (userContextKey user_id) with
  | Except.error _ => []
  | Except.ok (some c) => c
  | Except.ok none => []

/-- `BaseAgent.save_memory_context`: persist the agent-memory snapshot
with a 24-hour TTL, swallowing failures. -/
def save_memory_context (e : Env) (s : Store) (user_id : String) (context : Ctx) :
    Store :=
  match rSetex e s (memoryContextKey user_id) (3600 * 24) context with
  | Except.error _ => s
  | Except.ok s1 => s1

/-- `AgentOrchestrator._save_conversation`: push the turn record onto the
rolling log (trimmed to 10, 24-hour TTL), re-read the stored user context,
copy `location` / `commodity` / `crop_types` out of the response metadata,
and persist the context with a 7-day TTL.  The whole body is wrapped in
`try/except`, so a failing call ends the procedure early with the store as
mutated so far. -/
def save_conversation (e : Env) (s : Store) (user_id session_id query : String)
    (response : AgentResponse) : Store :=
  let ckey := conversationKey user_id session_id
  let recd : ConvRecord :=
    ⟨query, response.response, response.agent_name, response.confidence, e.now⟩
  match rLpush e s ckey recd with
  | Except.error _ => s
  | Except.ok s1 =>
    match rLtrim e s1 ckey 0 9 with
    | Except.error _ => s1
    | Except.ok s2 =>
      match rExpire e s2 ckey (3600 * 24) with
      | Except.error _ => s2
      | Except.ok s3 =>
        let uc := get_user_context e s3 user_id
        let uc :=
          if response.metadata.isEmpty then uc
          else
            let uc :=
              match assocGet response.metadata "location" with
              | some v => assocSet uc "location" v
              | none => uc
            let uc :=
              match assocGet response.metadata "commodity" with
              | some v => assocSet uc "last_commodity" v
              | none => uc
            match assocGet response.metadata "crop_types" with
            | some v => assocSet uc "crop_interests" v
            | none => uc
        match rSetex e s3 (userContextKey user_id) (3600 * 24 * 7) uc with
        | Except.error _ => s3
        | Except.ok s4 => s4

/-- Steps 2 of `process_query`: load the stored context, overlay the
caller-supplied context when truthy, and default `conversation_history`
to `[]` when absent. -/
def mergedContext (e : Env) (s : Store) (user_id : String) (context : Option Ctx) :
    Ctx :=
  let uc := get_user_context e s user_id
  let uc :=
    match context with
    | some c => if c.isEmpty then uc else ctxUpdate uc c
    | none => uc
  if (assocGet uc "conversation_history").isSome then uc
  else assocSet uc "conversation_history" (Val.turns [])

/-- Lines 86–91 of `process_query`: append the new turn to
`conversation_history` and keep only the last 10 entries (`[-10:]`). -/
def recordTurn (history : List Turn) (t : Turn) : List Turn :=
  lastN 10 (history ++ [t])

/-- The fixed-shape system reply built by the `except` handler of
`process_query`. -/
def fallbackResponse (err : String) : AgentResponse :=
  { agent_name := "System"
    response := "I encountered an error while processing your query. " ++
      "Please try again or rephrase your question. Error: " ++ err
    confidence := 0.1
    metadata := [("error", Val.str err), ("fallback", Val.bool true)] }

/-- The `try` block of `AgentOrchestrator.process_query`: classify, load
and merge the context, route, invoke the responder, enhance, append the
turn, run the conversation recorder, persist the working context.  An
uncaught exception is returned as `Except.error` together with the store
as mutated so far. -/
def processQueryBody (e : Env) (s : Store) (query user_id session_id : String)
    (context : Option Ctx) : Except (String × Store) (AgentResponse × Store) :=
  let intent_response := intent_classifier_process query
  let primary_intent := primaryIntentOf query
  let user_context := mergedContext e s user_id context
  let agent_name := routedAgent primary_intent
  match e.respond agent_name query (some user_context) with
  | Except.error err => Except.error (err, s)
  | Except.ok response =>
    match enhance_response response intent_response user_context with
    | Except.error err => Except.error (err, s)
    | Except.ok enhanced_response =>
      match assocGet user_context "conversation_history" with
      | some (Val.turns history) =>
        let user_context := assocSet user_context "conversation_history"
          (Val.turns (recordTurn history ⟨query, enhanced_response.response⟩))
        let s1 := save_conversation e s user_id session_id query enhanced_response
        match rSetex e s1 (userContextKey user_id) (3600 * 24 * 7) user_context with
        | Except.error err => Except.error (err, s1)
        | Except.ok s2 => Except.ok (enhanced_response, s2)
      | _ =>
        -- `user_context["conversation_history"].append(...)` raises
        -- `AttributeError` when the caller-supplied value is not a list.
        Except.error ("AttributeError: append", s)

/-- `AgentOrchestrator.process_query`: the `try` block above with the
`except` handler that converts any exception into the fixed system
response. -/
def process_query (e : Env) (s : Store) (query user_id session_id : String)
    (context : Option Ctx) : AgentResponse × Store :=
  match processQueryBody e s query user_id session_id context with
  | Except.ok r => r
  | Except.error (err, s1) => (fallbackResponse err, s1)

/-- Pydantic `AgentResponse.dict()` as returned by `route`. -/
def respToDict (r : AgentResponse) : Ctx :=
  [ ("agent_name", Val.str r.agent_name),
    ("response", Val.str r.response),
    ("confidence", Val.num r.confidence),
    ("metadata", Val.obj r.metadata),
    ("citations", Val.arr (r.citations.map Val.str)),
    ("requires_followup", Val.bool r.requires_followup) ]

/-- `AgentOrchestrator.route`: always invoke the `llm_chat` agent on the
raw query and caller context and return its response serialised with
`.dict()`; no classification, no store access, no enhancement, no
recording, and a responder exception propagates to the caller. -/
def route (e : Env) (s : Store) (query : String) (context : Option Ctx) :
    Except String Ctx × Store :=
  match e.respond "llm_chat" query context with
  | Except.error err => (Except.error err, s)
  | Except.ok response => (Except.ok (respToDict response), s)

/-- A concrete domain-responder reply used to exercise the pipeline: its
metadata carries all three well-known keys read by the recorder. -/
def demoResponse : AgentResponse :=
  { agent_name := "Crop Advisory Agent"
    response := "punjab ok"
    confidence := 0.9
    metadata := [("location", Val.str "punjab"), ("commodity", Val.str "wheat"),
                 ("crop_types", Val.arr [Val.str "wheat"])] }

/-- An environment in which no Redis call fails and every responder
returns `demoResponse`. -/
def envHappy : Env := ⟨fun _ => false, fun _ _ _ => Except.ok demoResponse, 0⟩

/-- An environment in which every responder invocation raises. -/
def envResponderFails : Env := ⟨fun _ => false, fun _ _ _ => Except.error "boom", 0⟩

/-- An environment in which exactly the `setex` calls persisting user
`u2`'s context key fail; responders and the rolling-log calls succeed. -/
def envCtxSaveFails : Env :=
  ⟨fun op =>
     match op with
     | RedisOp.setex key _ => key == userContextKey "u2"
     | _ => false,
   fun _ _ _ => Except.ok demoResponse, 0⟩

/-- The response `_enhance_response` produces from `demoResponse` for the
query `"zz"` (no intent matches, the location already occurs in the text,
so only the metadata is extended). -/
def demoEnhanced : AgentResponse :=
  { agent_name := "Crop Advisory Agent"
    response := "punjab ok"
    confidence := 0.9
    metadata := [("location", Val.str "punjab"), ("commodity", Val.str "wheat"),
                 ("crop_types", Val.arr [Val.str "wheat"]),
                 ("intent_confidence", Val.num 0.5),
                 ("primary_intent", Val.str "general"),
                 ("user_context_used", Val.bool true)] }

/-- A classification result whose primary intent is `policy` (no
configured follow-up list). -/
def policyIntentResp : AgentResponse :=
  { agent_name := "Intent Classifier"
    response := "Classified as: policy"
    confidence := 0.8
    metadata := [("primary_intent", Val.str "policy")] }

/-- The enhancement of a bare `ok`-reply under `policyIntentResp` and an
empty context. -/
def policyEnhanced : AgentResponse :=
  { agent_name := "A"
    response := "ok"
    confidence := 0.9
    metadata := [("intent_confidence", Val.num 0.8),
                 ("primary_intent", Val.str "policy"),
                 ("user_context_used", Val.bool false)] }

lemma assocGet_cons (hd : String × α) (t : List (String × α)) (k : String) :
    assocGet (hd :: t) k = if hd.1 == k then some hd.2 else assocGet t k := by
  by_cases h : hd.1 == k
  · simp [assocGet, List.find?_cons_of_pos, h]
  · simp only [Bool.not_eq_true] at h
    simp [assocGet, List.find?_cons_of_neg, h]

lemma assocGet_assocSet_self (m : List (String × α)) (k : String) (v : α) :
    assocGet (assocSet m k v) k = some v := by
  induction m with
  | nil => simp [assocSet, assocGet]
  | cons hd t ih =>
    by_cases hak : hd.1 = k
    · have h1 : ((hd :: t).find? (fun p => p.1 == k)) = some hd :=
        List.find?_cons_of_pos _ (by simp [hak])
      simp only [assocSet, h1, Option.isSome_some, if_true, List.map_cons]
      have hf : (if (hd.1 == k) = true then (k, v) else hd) = (k, v) := by simp [hak]
      rw [hf, assocGet_cons]
      simp
    · have hbeq : (hd.1 == k) = false := by simp [hak]
      have h1 : ((hd :: t).find? (fun p => p.1 == k)) = t.find? (fun p => p.1 == k) :=
        List.find?_cons_of_neg _ (by simp [hak])
      cases hfind : (t.find? (fun p => p.1 == k)).isSome with
      | true =>
        have iht : assocGet (t.map (fun p => if p.1 == k then (k, v) else p)) k = some v := by
          simp only [assocSet, hfind, if_true] at ih
          exact ih
        simp only [assocSet, h1, hfind, if_true, List.map_cons]
        have hf : (if (hd.1 == k) = true then (k, v) else hd) = hd := by simp [hbeq]
        rw [hf, assocGet_cons, if_neg (by simp [hak])]
        exact iht
      | false =>
        have iht : assocGet (t ++ [(k, v)]) k = some v := by
          simp only [assocSet, hfind, Bool.false_eq_true, if_false] at ih
          exact ih
        simp only [assocSet, h1, hfind, Bool.false_eq_true, if_false, List.cons_append]
        rw [assocGet_cons, if_neg (by simp [hak])]
        exact iht

set_option maxRecDepth 40000

/-- C5: After any sequence of recorded turns for one user within a request
pipeline, `conversation_history` never exceeds 10 entries and eviction is
FIFO (oldest first): recording 11 consecutive turns leaves
`conversation_history` with exactly 10 entries, namely turns 2 through 11. -/
theorem conversation_history_bounded_fifo :
    (∀ (history : List Turn) (t : Turn), (recordTurn history t).length ≤ 10) ∧
    (∀ t1 t2 t3 t4 t5 t6 t7 t8 t9 t10 t11 : Turn,
      ([t1, t2, t3, t4, t5, t6, t7, t8, t9, t10, t11]).foldl recordTurn [] =
        [t2, t3, t4, t5, t6, t7, t8, t9, t10, t11]) := by
  constructor
  · intro history t
    simp only [recordTurn, lastN, List.length_drop]
    omega
  · intro t1 t2 t3 t4 t5 t6 t7 t8 t9 t10 t11
    simp [recordTurn, lastN]

/-- C4: For every query text in which no pattern of any intent matches,
classification returns primary intent `general` with confidence exactly
0.5 (the classifier is a total function, so it cannot raise), and the
router then dispatches the query to the `crop_advisory` responder. -/
theorem no_match_defaults (query : String) (h : intent_scores query = []) :
    (intent_classifier_process query).confidence = 0.5 ∧
    assocGet (intent_classifier_process query).metadata "primary_intent" =
      some (Val.str "general") ∧
    routedAgent (primaryIntentOf query) = "crop_advisory" := by
  have hp : classifyPair query = ("general", 0.5) := by
    simp [classifyPair, h]
  have hpi : primaryIntentOf query = "general" := by
    simp [primaryIntentOf, intent_classifier_process, hp, assocGet_cons]
  exact ⟨by simp [intent_classifier_process, hp],
    by simp [intent_classifier_process, hp, assocGet_cons],
    by rw [hpi]; with_unfolding_all rfl⟩

/-- Witness for C4 at the spec's scenario query, which matches no pattern. -/
theorem no_match_defaults_witness :
    intent_scores "blah blah nothing relevant" = [] ∧
    ((intent_classifier_process "blah blah nothing relevant").confidence = 0.5 ∧
     assocGet (intent_classifier_process "blah blah nothing relevant").metadata
       "primary_intent" = some (Val.str "general") ∧
     routedAgent (primaryIntentOf "blah blah nothing relevant") = "crop_advisory") :=
  ⟨by with_unfolding_all rfl,
   no_match_defaults "blah blah nothing relevant" (by with_unfolding_all rfl)⟩

/-- C3: For every query, if the selected responder's `process` raises,
`process_query` does not propagate the exception: it returns the fixed
system response with `agent_name = "System"`, `confidence = 0.1`, and
metadata containing `fallback ↦ true` and an `error` entry. -/
theorem responder_failure_fallback (e : Env) (s : Store)
    (query user_id session_id : String) (context : Option Ctx) (msg : String)
    (h : e.respond (routedAgent (primaryIntentOf query)) query
        (some (mergedContext e s user_id context)) = Except.error msg) :
    (process_query e s query user_id session_id context).1 = fallbackResponse msg ∧
    (fallbackResponse msg).agent_name = "System" ∧
    (fallbackResponse msg).confidence = 0.1 ∧
    assocGet (fallbackResponse msg).metadata "fallback" = some (Val.bool true) ∧
    assocGet (fallbackResponse msg).metadata "error" = some (Val.str msg) := by
  refine ⟨?_, rfl, rfl, rfl, rfl⟩
  simp only [process_query, processQueryBody, h]

/-- Witness for C3: a concrete environment whose responder raises. -/
theorem responder_failure_fallback_witness :
    envResponderFails.respond (routedAgent (primaryIntentOf "zz")) "zz"
        (some (mergedContext envResponderFails emptyStore "u1" none)) =
      Except.error "boom" ∧
    (process_query envResponderFails emptyStore "zz" "u1" "s1" none).1 =
      fallbackResponse "boom" :=
  ⟨rfl, (responder_failure_fallback envResponderFails emptyStore "zz" "u1" "s1"
    none "boom" rfl).1⟩

/-- C9 counterexample: the 24-hour agent-memory snapshot of
`BaseAgent.save_memory_context` and the orchestrator's 7-day user context
are saved under the SAME key (`user_context:{user_id}`), refuting the
claimed key distinctness at `user_id = "u1"`. -/
theorem memory_snapshot_key_collides : memoryContextKey "u1" = userContextKey "u1" := rfl

/-- C9 (amended): for every user, the rolling conversation-log key is
distinct from the user-context key, but the 24-hour agent-memory snapshot
is stored under the very key that holds the 7-day user context (so the
snapshot save overwrites the durable record's TTL with 24 hours). -/
theorem memory_tier_keys (user_id session_id : String) (s : Store) (context : Ctx) :
    memoryContextKey user_id = userContextKey user_id ∧
    conversationKey user_id session_id ≠ userContextKey user_id ∧
    assocGet (save_memory_context envHappy s user_id context).kv
        (userContextKey user_id) = some (context, 3600 * 24) := by
  refine ⟨rfl, ?_, ?_⟩
  · intro hcontra
    have hc : (conversationKey user_id session_id).data.head? = some 'c' := rfl
    rw [hcontra] at hc
    have hu : (userContextKey user_id).data.head? = some 'u' := rfl
    rw [hu] at hc
    exact absurd hc (by decide)
  · simp [save_memory_context, rSetex, envHappy, memoryContextKey, userContextKey,
      assocGet_assocSet_self]

/-- C1: in an otherwise failure-free run whose responder metadata carries
`location`, `commodity` and `crop_types`, the enhanced response returned
by `process_query` still carries all three keys, and
`_save_conversation` alone persists the extracted
`location` / `last_commodity` / `crop_interests` context fields — but the
record actually persisted when `process_query`'s recording step completes
contains none of them, because the final context save overwrites the
recorder's update with the pre-extraction working copy. -/
theorem recorder_context_overwritten :
    (assocGet (process_query envHappy emptyStore "zz" "u1" "s1" none).1.metadata
        "location" = some (Val.str "punjab") ∧
     assocGet (process_query envHappy emptyStore "zz" "u1" "s1" none).1.metadata
        "commodity" = some (Val.str "wheat") ∧
     assocGet (process_query envHappy emptyStore "zz" "u1" "s1" none).1.metadata
        "crop_types" = some (Val.arr [Val.str "wheat"])) ∧
    ((assocGet (save_conversation envHappy emptyStore "u1" "s1" "zz" demoResponse).kv
        (userContextKey "u1")).map
        (fun p => (assocGet p.1 "location", assocGet p.1 "last_commodity",
                   assocGet p.1 "crop_interests", p.2))
       = some (some (Val.str "punjab"), some (Val.str "wheat"),
               some (Val.arr [Val.str "wheat"]), 3600 * 24 * 7)) ∧
    ((assocGet (process_query envHappy emptyStore "zz" "u1" "s1" none).2.kv
        (userContextKey "u1")).map
        (fun p => (assocGet p.1 "location", assocGet p.1 "last_commodity",
                   assocGet p.1 "crop_interests", p.2))
       = some (none, none, none, 3600 * 24 * 7)) :=
  ⟨⟨by with_unfolding_all rfl, by with_unfolding_all rfl, by with_unfolding_all rfl⟩,
   by with_unfolding_all rfl, by with_unfolding_all rfl⟩

/-- C2 counterexample: with responder and enhancement succeeding, a
failure of the `setex` persisting the 7-day user context makes
`process_query` return the System fallback instead of the enhanced
response — a persistence failure that DOES change the reply, refuting the
claim as stated. -/
theorem ctx_persist_failure_changes_reply :
    envCtxSaveFails.fails (RedisOp.setex (userContextKey "u2") (3600 * 24 * 7)) = true ∧
    envCtxSaveFails.respond (routedAgent (primaryIntentOf "zz")) "zz"
        (some (mergedContext envCtxSaveFails emptyStore "u2" none))
      = Except.ok demoResponse ∧
    enhance_response demoResponse (intent_classifier_process "zz")
        (mergedContext envCtxSaveFails emptyStore "u2" none) = Except.ok demoEnhanced ∧
    (process_query envCtxSaveFails emptyStore "zz" "u2" "s2" none).1
      = fallbackResponse "RedisError: setex" ∧
    demoEnhanced.agent_name = "Crop Advisory Agent" ∧
    (fallbackResponse "RedisError: setex").agent_name = "System" :=
  ⟨by with_unfolding_all rfl, rfl, by with_unfolding_all rfl,
   by with_unfolding_all rfl, rfl, rfl⟩

/-- C2 (amended): failures raised while persisting the rolling
conversation log (and any context re-read inside the recorder) are
swallowed and never change the returned response — whatever the failure
behaviour of those calls, the caller receives the enhanced response as
long as the final 7-day context `setex` succeeds; a failure of that final
`setex` instead replaces the reply with the System fallback (still never
raising outward). -/
theorem log_persistence_swallowed (e : Env) (s : Store)
    (query user_id session_id : String) (context : Option Ctx)
    (response enhanced : AgentResponse) (history : List Turn)
    (h1 : e.respond (routedAgent (primaryIntentOf query)) query
        (some (mergedContext e s user_id context)) = Except.ok response)
    (h2 : enhance_response response (intent_classifier_process query)
        (mergedContext e s user_id context) = Except.ok enhanced)
    (h3 : assocGet (mergedContext e s user_id context) "conversation_history"
        = some (Val.turns history))
    (h4 : e.fails (RedisOp.setex (userContextKey user_id) (3600 * 24 * 7)) = false) :
    (process_query e s query user_id session_id context).1 = enhanced := by
  simp only [process_query, processQueryBody, h1, h2, h3, rSetex, h4]
  simp

/-- Witness for the amended C2 in a failure-free environment. -/
theorem log_persistence_swallowed_witness :
    envHappy.respond (routedAgent (primaryIntentOf "zz")) "zz"
        (some (mergedContext envHappy emptyStore "u1" none)) =
      Except.ok demoResponse ∧
    enhance_response demoResponse (intent_classifier_process "zz")
        (mergedContext envHappy emptyStore "u1" none) = Except.ok demoEnhanced ∧
    assocGet (mergedContext envHappy emptyStore "u1" none) "conversation_history"
        = some (Val.turns []) ∧
    envHappy.fails (RedisOp.setex (userContextKey "u1") (3600 * 24 * 7)) = false ∧
    (process_query envHappy emptyStore "zz" "u1" "s1" none).1 = demoEnhanced :=
  ⟨rfl, by with_unfolding_all rfl, by with_unfolding_all rfl, rfl,
   log_persistence_swallowed envHappy emptyStore "zz" "u1" "s1" none demoResponse
     demoEnhanced [] rfl (by with_unfolding_all rfl) (by with_unfolding_all rfl) rfl⟩

/-- C10: for every query and context, `route` invokes the `llm_chat`
responder and returns exactly its `AgentResponse` serialised to a dict,
leaving the store untouched (no context loading or recording), and its
result depends only on the `llm_chat` collaborator (no classification or
enhancement). -/
theorem route_only_llm_chat (e e2 : Env) (s : Store) (query : String)
    (context : Option Ctx) (r : AgentResponse)
    (h : e.respond "llm_chat" query context = Except.ok r) :
    route e s query context = (Except.ok (respToDict r), s) ∧
    (e2.respond "llm_chat" = e.respond "llm_chat" →
      route e2 s query context = route e s query context) := by
  constructor
  · simp only [route, h]
  · intro h2
    simp only [route, h2]

/-- Witness for C10 in a concrete environment. -/
theorem route_only_llm_chat_witness :
    envHappy.respond "llm_chat" "zz" none = Except.ok demoResponse ∧
    route envHappy emptyStore "zz" none =
      (Except.ok (respToDict demoResponse), emptyStore) :=
  ⟨rfl, (route_only_llm_chat envHappy envHappy emptyStore "zz" none demoResponse rfl).1⟩

lemma foldl_weight_shift (l : List Pattern) (acc : ℚ) :
    l.foldl (fun a p => a + p.weight) acc = acc + l.foldl (fun a p => a + p.weight) 0 := by
  induction l generalizing acc with
  | nil => simp
  | cons hd t ih =>
    simp only [List.foldl_cons]
    rw [ih (acc + hd.weight), ih (0 + hd.weight)]
    ring

lemma sum_weights_nonneg (l : List Pattern) (hpos : ∀ p ∈ l, 0 < p.weight) :
    0 ≤ l.foldl (fun a p => a + p.weight) 0 := by
  induction l with
  | nil => simp
  | cons hd t ih =>
    simp only [List.foldl_cons]
    rw [foldl_weight_shift]
    have h1 := hpos hd (List.mem_cons_self hd t)
    have h2 := ih (fun p hp => hpos p (List.mem_cons_of_mem hd hp))
    linarith

lemma sum_weights_pos (l : List Pattern) (hpos : ∀ p ∈ l, 0 < p.weight)
    (hne : l ≠ []) : 0 < l.foldl (fun a p => a + p.weight) 0 := by
  cases l with
  | nil => exact absurd rfl hne
  | cons hd t =>
    simp only [List.foldl_cons]
    rw [foldl_weight_shift]
    have h1 := hpos hd (List.mem_cons_self hd t)
    have h2 := sum_weights_nonneg t (fun p hp => hpos p (List.mem_cons_of_mem hd hp))
    linarith

lemma keyUnique {β : Type} (tbl : List (String × β))
    (hnd : (tbl.map Prod.fst).Nodup) {i : String} {x y : β}
    (hx : (i, x) ∈ tbl) (hy : (i, y) ∈ tbl) : x = y := by
  induction tbl with
  | nil => cases hx
  | cons hd t ih =>
    simp only [List.map_cons, List.nodup_cons] at hnd
    rcases List.mem_cons.mp hx with hx1 | hx2
    · rcases List.mem_cons.mp hy with hy1 | hy2
      · rw [← hx1] at hy1
        exact ((Prod.ext_iff.mp hy1).2).symm
      · rw [← hx1] at hnd
        exact absurd (List.mem_map_of_mem Prod.fst hy2) (by simpa using hnd.1)
    · rcases List.mem_cons.mp hy with hy1 | hy2
      · rw [← hy1] at hnd
        exact absurd (List.mem_map_of_mem Prod.fst hx2) (by simpa using hnd.1)
      · exact ih hnd.2 hx2 hy2

lemma scoreEntry_key (ql : String) (e : String × List Pattern)
    (x : String × IntentScore) (h : scoreEntry ql e = some x) : x.1 = e.1 := by
  simp only [scoreEntry] at h
  split at h
  · cases h; rfl
  · cases h

lemma intent_patterns_keys_nodup : (intent_patterns.map Prod.fst).Nodup := by
  simp [intent_patterns]

lemma intent_patterns_weights_pos :
    ∀ e ∈ intent_patterns, ∀ p ∈ e.2, 0 < p.weight := by
  intro e he p hp
  fin_cases he <;> fin_cases hp <;> norm_num

/-- C6: for every query text and every intent in the rule table, the
intent's score equals the sum of the weights of its matching patterns
capped at 1.0 (so it is ≤ 1.0 even when the cumulative matched weights
exceed 1.0), and intents with zero matches are omitted from the scored
mapping. -/
theorem score_sum_capped (query intent : String) (pats : List Pattern)
    (hmem : (intent, pats) ∈ intent_patterns) :
    ((pats.filter (fun p => patternMatches p query.toLower)).isEmpty = true →
      ∀ v, (intent, v) ∉ intent_scores query) ∧
    ((pats.filter (fun p => patternMatches p query.toLower)).isEmpty = false →
      (intent,
        (⟨min ((pats.filter (fun p => patternMatches p query.toLower)).foldl
            (fun acc p => acc + p.weight) 0) 1,
          (pats.filter (fun p => patternMatches p query.toLower)).map Pattern.regex⟩
          : IntentScore))
        ∈ intent_scores query ∧
      min ((pats.filter (fun p => patternMatches p query.toLower)).foldl
            (fun acc p => acc + p.weight) 0) 1 ≤ 1) := by
  have hpos : ∀ p ∈ pats.filter (fun p => patternMatches p query.toLower), 0 < p.weight :=
    fun p hp => intent_patterns_weights_pos (intent, pats) hmem p (List.mem_of_mem_filter hp)
  constructor
  · intro hempty v hv
    obtain ⟨a, ha, hsea⟩ := List.mem_filterMap.mp hv
    have hk : a.1 = intent := (scoreEntry_key _ _ _ hsea).symm
    have ha2 : a = (intent, a.2) := by
      rw [← hk]
    have hpats : a.2 = pats := by
      apply keyUnique intent_patterns intent_patterns_keys_nodup _ hmem
      rw [← ha2]
      exact ha
    rw [ha2, hpats] at hsea
    rw [List.isEmpty_iff] at hempty
    simp only [scoreEntry, hempty] at hsea
    norm_num at hsea
    exact Option.noConfusion hsea
  · intro hne
    refine ⟨List.mem_filterMap.mpr ⟨(intent, pats), hmem, ?_⟩, min_le_right _ _⟩
    have hppos : 0 < (pats.filter (fun p => patternMatches p query.toLower)).foldl
        (fun acc p => acc + p.weight) 0 :=
      sum_weights_pos _ hpos (by simpa [List.isEmpty_iff] using hne)
    simp only [intent_scores, scoreEntry, hppos, if_pos]

/-- Witness for C6 at query `"price"` and the `market_intelligence` rule
entry: exactly its first pattern matches, giving score `min 0.8 1`. -/
theorem score_sum_capped_witness :
    (([ (⟨"\\b(price|market|mandi|sell|buy)\\b",
          ["price", "market", "mandi", "sell", "buy"], 0.8⟩ : Pattern),
        ⟨"\\b(commodity|trading|auction)\\b",
          ["commodity", "trading", "auction"], 0.7⟩,
        ⟨"\\b(market rate|current price|price trend)\\b",
          ["market rate", "current price", "price trend"],
          0.9⟩ ].filter (fun p => patternMatches p ("price").toLower)).isEmpty = false) ∧
    ("market_intelligence",
      (⟨min (([ (⟨"\\b(price|market|mandi|sell|buy)\\b",
          ["price", "market", "mandi", "sell", "buy"], 0.8⟩ : Pattern),
        ⟨"\\b(commodity|trading|auction)\\b",
          ["commodity", "trading", "auction"], 0.7⟩,
        ⟨"\\b(market rate|current price|price trend)\\b",
          ["market rate", "current price", "price trend"],
          0.9⟩ ].filter (fun p => patternMatches p ("price").toLower)).foldl
            (fun acc p => acc + p.weight) 0) 1,
        ([ (⟨"\\b(price|market|mandi|sell|buy)\\b",
          ["price", "market", "mandi", "sell", "buy"], 0.8⟩ : Pattern),
        ⟨"\\b(commodity|trading|auction)\\b",
          ["commodity", "trading", "auction"], 0.7⟩,
        ⟨"\\b(market rate|current price|price trend)\\b",
          ["market rate", "current price", "price trend"],
          0.9⟩ ].filter (fun p => patternMatches p ("price").toLower)).map
          Pattern.regex⟩ : IntentScore)) ∈ intent_scores "price" :=
  have hmem : ("market_intelligence",
      [ (⟨"\\b(price|market|mandi|sell|buy)\\b",
          ["price", "market", "mandi", "sell", "buy"], 0.8⟩ : Pattern),
        ⟨"\\b(commodity|trading|auction)\\b",
          ["commodity", "trading", "auction"], 0.7⟩,
        ⟨"\\b(market rate|current price|price trend)\\b",
          ["market rate", "current price", "price trend"], 0.9⟩ ]) ∈ intent_patterns :=
    List.mem_cons_of_mem _ (List.mem_cons_of_mem _ (List.mem_cons_of_mem _
      (List.mem_cons_of_mem _ (List.mem_cons_of_mem _ (List.mem_cons_self _ _)))))
  ⟨by with_unfolding_all rfl,
   ((score_sum_capped "price" "market_intelligence" _ hmem).2
      (by with_unfolding_all rfl)).1⟩

lemma find?_dominates_eq_pyMaxFold :
    ∀ (t : List (String × IntentScore)) (hd : String × IntentScore),
      (hd :: t).find? (dominates (hd :: t)) = some (pyMaxFold hd t) := by
  intro t
  induction t with
  | nil =>
    intro hd
    have h1 : dominates [hd] hd = true := by simp [dominates]
    rw [List.find?_cons_of_pos _ h1]
    simp [pyMaxFold]
  | cons b t' ih =>
    intro hd
    by_cases hb : hd.2.score < b.2.score
    · have hstep : pyMaxFold hd (b :: t') = pyMaxFold b t' := by
        simp [pyMaxFold, hb]
      have hPhd : ¬ dominates (hd :: b :: t') hd = true := by
        simp only [dominates, List.all_eq_true, not_forall]
        refine ⟨b, by simp, by simp [not_le.mpr hb]⟩
      have hpt : dominates (hd :: b :: t') = dominates (b :: t') := by
        funext x
        by_cases hbx : b.2.score ≤ x.2.score
        · have hhx : hd.2.score ≤ x.2.score := le_trans (le_of_lt hb) hbx
          simp [dominates, List.all_cons, hbx, hhx]
        · simp [dominates, List.all_cons, hbx]
      rw [hstep, List.find?_cons_of_neg _ hPhd, hpt]
      exact ih b
    · have hble : b.2.score ≤ hd.2.score := not_lt.mp hb
      have hstep : pyMaxFold hd (b :: t') = pyMaxFold hd t' := by
        simp [pyMaxFold, hb]
      have hpt : dominates (hd :: b :: t') = dominates (hd :: t') := by
        funext x
        by_cases hhx : hd.2.score ≤ x.2.score
        · have hbx : b.2.score ≤ x.2.score := le_trans hble hhx
          simp [dominates, List.all_cons, hbx, hhx]
        · simp [dominates, List.all_cons, hhx]
      rw [hstep, hpt]
      by_cases hPhd : dominates (hd :: t') hd = true
      · rw [List.find?_cons_of_pos _ hPhd]
        have hih := ih hd
        rw [List.find?_cons_of_pos _ hPhd] at hih
        exact hih
      · have hQb : ¬ dominates (hd :: t') b = true := by
          intro hq
          apply hPhd
          simp only [dominates, List.all_eq_true] at hq ⊢
          intro y hy
          have h2 := hq y hy
          simp only [decide_eq_true_eq] at h2 ⊢
          exact le_trans h2 hble
        rw [List.find?_cons_of_neg _ hPhd, List.find?_cons_of_neg _ hQb]
        have hih := ih hd
        rw [List.find?_cons_of_neg _ hPhd] at hih
        exact hih

lemma primaryIntentOf_eq (query : String) :
    primaryIntentOf query = (classifyPair query).1 := by
  simp [primaryIntentOf, intent_classifier_process, assocGet_cons]

/-- C7: classification is deterministic under ties — the classifier (a
pure function, so repeated classification of the same query trivially
agrees) selects the FIRST entry of the scored mapping that attains the
maximal score, i.e. the first such intent in the fixed rule-table
registration order. -/
theorem tie_break_first_registered (query : String)
    (h : (intent_scores query).isEmpty = false) :
    ((intent_scores query).find? (dominates (intent_scores query))).map Prod.fst
      = some (primaryIntentOf query) := by
  cases hcase : intent_scores query with
  | nil => rw [hcase] at h; simp at h
  | cons hd t =>
    have hcp : classifyPair query = ((pyMaxFold hd t).1, (pyMaxFold hd t).2.score) := by
      simp only [classifyPair, hcase]
    rw [primaryIntentOf_eq, hcp, find?_dominates_eq_pyMaxFold]
    simp

/-- Witness for C7 at the genuinely tied query `"crop soil"`
(`crop_advisory` and `soil_analysis` both score 0.8; the first-registered
`crop_advisory` wins). -/
theorem tie_break_first_registered_witness :
    (intent_scores "crop soil").isEmpty = false ∧
    ((intent_scores "crop soil").find? (dominates (intent_scores "crop soil"))).map
        Prod.fst = some (primaryIntentOf "crop soil") ∧
    primaryIntentOf "crop soil" = "crop_advisory" ∧
    (assocGet (intent_scores "crop soil") "crop_advisory").map IntentScore.score
      = some 0.8 ∧
    (assocGet (intent_scores "crop soil") "soil_analysis").map IntentScore.score
      = some 0.8 :=
  ⟨by with_unfolding_all rfl,
   tie_break_first_registered "crop soil" (by with_unfolding_all rfl),
   by with_unfolding_all rfl, by with_unfolding_all rfl, by with_unfolding_all rfl⟩

/-- C8: for every responder output and classification result that enhance
successfully, the enhanced response has `requires_followup = true` iff the
static follow-up list for the primary intent is non-empty — and that list
is non-empty exactly for `crop_advisory`, `weather` and
`market_intelligence` (so e.g. `policy` yields `false`). -/
theorem requires_followup_iff (response intent_response : AgentResponse)
    (user_context : Ctx) (enhanced : AgentResponse)
    (h : enhance_response response intent_response user_context = Except.ok enhanced) :
    (∃ fus, followUpsFor (assocGet intent_response.metadata "primary_intent")
        = Except.ok fus ∧ (enhanced.requires_followup = true ↔ fus ≠ [])) ∧
    (∀ intent : String, (assocGet follow_ups intent).getD [] ≠ [] ↔
      (intent = "crop_advisory" ∨ intent = "weather" ∨
       intent = "market_intelligence")) := by
  constructor
  · simp only [enhance_response] at h
    split at h
    · exact absurd h (by simp)
    · split at h
      · exact absurd h (by simp)
      · rename_i fus heq
        refine ⟨fus, heq, ?_⟩
        have henh := h
        injection henh with henh2
        rw [← henh2]
        simp
  · intro intent
    constructor
    · intro hne
      by_contra hall
      push_neg at hall
      obtain ⟨n1, n2, n3⟩ := hall
      apply hne
      have m1 : ("crop_advisory" == intent) = false :=
        beq_eq_false_iff_ne.mpr (Ne.symm n1)
      have m2 : ("weather" == intent) = false :=
        beq_eq_false_iff_ne.mpr (Ne.symm n2)
      have m3 : ("market_intelligence" == intent) = false :=
        beq_eq_false_iff_ne.mpr (Ne.symm n3)
      simp [follow_ups, assocGet, List.find?, m1, m2, m3]
    · intro hor
      rcases hor with h1 | h1 | h1 <;> subst h1 <;> simp [follow_ups, assocGet]

/-- Witness for C8 at a `policy` classification (no configured follow-up
list, hence `requires_followup = false`). -/
theorem requires_followup_iff_witness :
    enhance_response
        { agent_name := "A", response := "ok", confidence := 0.9 }
        policyIntentResp [] = Except.ok policyEnhanced ∧
    (∃ fus, followUpsFor (assocGet policyIntentResp.metadata "primary_intent")
        = Except.ok fus ∧ (policyEnhanced.requires_followup = true ↔ fus ≠ [])) :=
  ⟨by with_unfolding_all rfl,
   (requires_followup_iff { agent_name := "A", response := "ok", confidence := 0.9 }
      policyIntentResp [] policyEnhanced (by with_unfolding_all rfl)).1⟩
